import Mathlib

/-!
Verification of the request-body middleware (`requestbody.go`).

The Go code is shallowly embedded: byte streams become `List Nat`; a
decoder constructor (`EncodingReader`) becomes a whole-content transformer
that may fail; `http.MaxBytesReader` (standard library) is modelled by a
budget carried on the reader state; `sync.Once` is modelled by an
`initialized` flag plus a ghost `initCount` counting actual executions of
the once-body; the `panic`/`recover` pair used by `handleError` and the
middleware wrapper is modelled by an explicit `panicked` result
constructor and a `recoverWrites` function.
-/

namespace RequestBody

/-- Byte streams as lists of bytes. -/
abbrev Bytes := List Nat

/-- `type EncodingReader func(r io.Reader) (io.ReadCloser, error)`:
a decoder constructor, modelled as a whole-content transformer that
either yields the decoded content or fails (as `gzip.NewReader` can). -/
abbrev EncodingReader := Bytes → Except String Bytes

/-- `type encoding struct { reader EncodingReader; alias bool }`. -/
structure Encoding where
  reader : EncodingReader
  isAlias : Bool

/-- The closed error taxonomy implementing `RequestBodyError`:
`BadRequestError`, `RequestContentTooLargeError`,
`RequestContentLengthRequiredError`, `RequestUnsupportedMediaTypeError`. -/
inductive RequestBodyError where
  | badRequest (msg : String)
  | contentTooLarge (limit : Int)
  | lengthRequired
  | unsupportedMediaType (encoding : String)
deriving DecidableEq

/-- `RecommendedStatusCode` of each error kind. -/
def RequestBodyError.recommendedStatusCode : RequestBodyError → Nat
  | .badRequest _ => 400
  | .contentTooLarge _ => 413
  | .lengthRequired => 411
  | .unsupportedMediaType _ => 415

/-- A Go `error` value as surfaced by reads/closes: `io.EOF`, a typed
`RequestBodyError`, or a raw (unwrapped) error. -/
inductive ErrVal where
  | eofE
  | typedE (e : RequestBodyError)
  | rawE (msg : String)
deriving DecidableEq

/-- An effect on the `http.ResponseWriter`. -/
inductive RespAction where
  | writeHeader (status : Nat)
  | writeBody (s : String)
deriving DecidableEq

/-- `type RequestBodyErrorHandler func(w, r, err RequestBodyError)`:
modelled by the list of response actions it performs for a given error. -/
abbrev RequestBodyErrorHandler := RequestBodyError → List RespAction

/-- `StatusOnlyRequestBodyErrorHandler`: writes only the recommended
status code. -/
def StatusOnlyRequestBodyErrorHandler : RequestBodyErrorHandler :=
  fun e => [.writeHeader e.recommendedStatusCode]

/-- `type options struct`: the per-request policy.  `handleError = none`
models a nil handler (the `ReturnOnError` configuration). -/
structure Options where
  maxContentLength : Int
  requireContentLength : Bool
  supportedEncodings : List (String × Encoding)
  handleError : Option RequestBodyErrorHandler

/-- How the underlying stream ends: `io.EOF` or a raw read error. -/
inductive Terminal where
  | eofT
  | errT (msg : String)
deriving DecidableEq

/-- An `io.ReadCloser` as held in `lazyReader.reader`: remaining content,
how the stream terminates, what `Close` returns, and — when
`http.MaxBytesReader` has been applied — the pair (original limit,
remaining budget). -/
structure PReader where
  data : Bytes
  terminal : Terminal
  closeErr : Option String
  limit : Option (Int × Int)
deriving DecidableEq

/-- `type lazyReader struct`.  `initialized` models the `sync.Once` done
flag; `initCount` is a ghost counter of executions of the once-body. -/
structure LazyReader where
  initialized : Bool
  initCount : Nat
  contentLength : Int
  contentEncoding : String
  initErr : Option RequestBodyError
  options : Options
  reader : PReader

/-- `strings.Split(s, ",")` on the character list of `s` (always returns
at least one segment). -/
def splitComma : List Char → List (List Char)
  | [] => [[]]
  | c :: cs =>
    if c = ',' then [] :: splitComma cs
    else
      match splitComma cs with
      | s :: ss => (c :: s) :: ss
      | [] => [[c]]

/-- The whitespace characters trimmed by `strings.TrimSpace` (Latin-1
range of `unicode.IsSpace`). -/
def isSpaceChar (c : Char) : Bool :=
  c = ' ' ∨ c = '\t' ∨ c = '\n' ∨ c = (Char.ofNat 11) ∨ c = (Char.ofNat 12) ∨ c = '\r'

/-- `strings.TrimSpace` on a character list. -/
def goTrimList (l : List Char) : List Char :=
  ((l.dropWhile isSpaceChar).reverse.dropWhile isSpaceChar).reverse

/-- `strings.TrimSpace`. -/
def goTrim (s : String) : String := String.mk (goTrimList s.toList)

/-- The token-lookup loop of `lazyReader.init`: for each segment, trim
it and look it up in `supportedEncodings`; collect the readers in header
order, failing on the first unknown (trimmed) token. -/
def collectEncodings (reg : List (String × Encoding)) :
    List (List Char) → Except String (List EncodingReader)
  | [] => .ok []
  | seg :: rest =>
    let trimmed := String.mk (goTrimList seg)
    match List.lookup trimmed reg with
    | some enc => (collectEncodings reg rest).map (enc.reader :: ·)
    | none => .error trimmed

/-- The decoder-application loop of `lazyReader.init`: apply each
constructor to the current content (the Go loop wraps readers; on whole
contents that is sequential application). -/
def applyDecoders (ds : List EncodingReader) (content : Bytes) : Except String Bytes :=
  ds.foldlM (fun c d => d c) content

/-- The pipeline-construction half of `lazyReader.init` (steps 4–7):
token collection, decoder application in reverse header order, and the
`http.MaxBytesReader` wrap when the ceiling is strictly positive. -/
def buildPipeline (r : LazyReader) : LazyReader :=
  match (if r.contentEncoding ≠ "" then
          collectEncodings r.options.supportedEncodings (splitComma r.contentEncoding.toList)
         else .ok []) with
  | .error tok => { r with initErr := some (.unsupportedMediaType tok) }
  | .ok encodings =>
    match applyDecoders encodings.reverse r.reader.data with
    | .error msg =>
      { r with initErr := some (.badRequest
          ("failed to create encoding reader for " ++ r.contentEncoding ++ ": " ++ msg)) }
    | .ok content =>
      { r with reader :=
          { data := content
            terminal := r.reader.terminal
            closeErr := r.reader.closeErr
            limit := if r.options.maxContentLength > 0 then
                       some (r.options.maxContentLength, r.options.maxContentLength)
                     else none } }

/-- The body of `r.once.Do(func() { ... })` in `lazyReader.init`,
translated clause by clause from the source. -/
def initBody (r : LazyReader) : LazyReader :=
  if r.contentLength = 0 then r
  else if r.contentLength < 0 ∧ r.options.requireContentLength then
    { r with initErr := some .lengthRequired }
  else if r.options.maxContentLength > -1 ∧ r.contentLength > r.options.maxContentLength then
    { r with initErr := some (.contentTooLarge r.options.maxContentLength) }
  else buildPipeline r

/-- `lazyReader.init`: the `sync.Once` guard around `initBody`. -/
def lrInit (r : LazyReader) : LazyReader :=
  if r.initialized then r
  else { initBody r with initialized := true, initCount := r.initCount + 1 }

/-- Result of `handleError`: either a panic carrying the typed error and
the handler (recovered by the middleware), or a normal return. -/
inductive HandleRes where
  | panicH (e : RequestBodyError) (h : RequestBodyErrorHandler)
  | retH (err : ErrVal)

/-- `func handleError(handleBodyError RequestBodyErrorHandler, err error) error`:
panics when a non-nil handler is given a typed error, otherwise returns
the error unchanged. -/
def handleError (h : Option RequestBodyErrorHandler) (err : ErrVal) : HandleRes :=
  match h, err with
  | some s, .typedE e => .panicH e s
  | some _, other => .retH other
  | none, other => .retH other

/-- Outcome of one low-level `Read` with a 1-byte buffer. -/
inductive LowRes where
  | bytes (b : Nat)
  | eofR
  | rawR (msg : String)
  | tooBig (orig : Int)

/-- One `Read` call with a 1-byte buffer against the held reader,
including the `http.MaxBytesReader` budget when installed (the guard
fails with `MaxBytesError` carrying the original limit once more than
the budget would be produced). -/
def read1 (r : PReader) : PReader × LowRes :=
  match r.limit with
  | none =>
    match r.data with
    | b :: rest => ({ r with data := rest }, .bytes b)
    | [] => (r, match r.terminal with | .eofT => .eofR | .errT m => .rawR m)
  | some (orig, rem) =>
    match r.data with
    | [] => (r, match r.terminal with | .eofT => .eofR | .errT m => .rawR m)
    | b :: rest =>
      if 1 ≤ rem then ({ r with data := rest, limit := some (orig, rem - 1) }, .bytes b)
      else (r, .tooBig orig)

/-- What a single `lazyReader.Read` call produces for its caller: a
normal return (optional byte, optional error) or a panic raised by
`handleError`. -/
inductive ReadResult where
  | ret (b : Option Nat) (err : Option ErrVal)
  | panicked (e : RequestBodyError) (h : RequestBodyErrorHandler)

/-- The tail of `lazyReader.Read`: route an error value through
`handleError` and shape the result. -/
def finishRead (r : LazyReader) (err : ErrVal) : LazyReader × ReadResult :=
  match handleError r.options.handleError err with
  | .panicH e s => (r, .panicked e s)
  | .retH e => (r, .ret none (some e))

/-- `lazyReader.Read` (with a 1-byte buffer): run `init`, replay any
deferred error through `handleError`, otherwise read one byte from the
pipeline, reclassifying `MaxBytesError` as `RequestContentTooLargeError`
and any other non-EOF error as `BadRequestError`. -/
def lazyRead (r : LazyReader) : LazyReader × ReadResult :=
  let r := lrInit r
  match r.initErr with
  | some e => finishRead r (.typedE e)
  | none =>
    let (p, res) := read1 r.reader
    let r := { r with reader := p }
    match res with
    | .bytes b => (r, .ret (some b) none)
    | .eofR => finishRead r .eofE
    | .rawR m => finishRead r (.typedE (.badRequest m))
    | .tooBig orig => finishRead r (.typedE (.contentTooLarge orig))

/-- What a single `lazyReader.Close` call produces. -/
inductive CloseResult where
  | retC (err : Option ErrVal)
  | panicC (e : RequestBodyError) (h : RequestBodyErrorHandler)

/-- `lazyReader.Close`: note it does NOT call `init`; a deferred error is
replayed through `handleError`, otherwise the underlying `Close` result
is returned as-is (unwrapped). -/
def lazyClose (r : LazyReader) : LazyReader × CloseResult :=
  match r.initErr with
  | some e =>
    match handleError r.options.handleError (.typedE e) with
    | .panicH e s => (r, .panicC e s)
    | .retH err => (r, .retC (some err))
  | none => (r, .retC (r.reader.closeErr.map ErrVal.rawE))

/-- The `defer`/`recover` block of `RequestBodyHandler`: on a
`bodyErrorPanic` it invokes the carried handler on the carried error;
otherwise nothing is written by the middleware. -/
def recoverWrites : ReadResult → List RespAction
  | .panicked e s => s e
  | _ => []

/-- An operation issued against the wrapped body. -/
inductive Op where
  | read
  | close

/-- State transition of one operation. -/
def lrStep (r : LazyReader) : Op → LazyReader
  | .read => (lazyRead r).1
  | .close => (lazyClose r).1

/-- Run a sequence of operations. -/
def lrRun (r : LazyReader) (ops : List Op) : LazyReader := ops.foldl lrStep r

/-- Drain the body: repeatedly `Read` until an error, end-of-stream or a
panic; returns the delivered bytes and the terminating error value (a
panic is recorded as its typed error). -/
def drain : Nat → LazyReader → Bytes × Option ErrVal
  | 0, _ => ([], none)
  | fuel + 1, r =>
    match lazyRead r with
    | (r', .ret (some b) none) =>
      let (bs, e) := drain fuel r'
      (b :: bs, e)
    | (_, .ret _ err) => ([], err)
    | (_, .panicked e _) => ([], some (.typedE e))

/-- `Read` fails with the given typed error delivering no bytes — either
returned (nil handler) or panicked (non-nil handler). -/
def failsWithB : ReadResult → RequestBodyError → Bool
  | .ret none (some (.typedE e)), e' => decide (e = e')
  | .panicked e _, e' => decide (e = e')
  | _, _ => false

/-- The default registry built in `RequestBodyHandler`.  The gzip and
deflate codecs live in external libraries (`compress/gzip`,
`compress/flate`); their byte-level behaviour is irrelevant to every
claim touching the default registry (only keys and alias flags matter),
so their constructors are abstracted as successful identities. -/
def GZipEncodingReader : EncodingReader := fun bs => .ok bs

/-- See `GZipEncodingReader`. -/
def DeflateEncodingReader : EncodingReader := fun bs => .ok bs

/-- The default `supportedEncodings` map of `RequestBodyHandler`. -/
def defaultEncodings : List (String × Encoding) :=
  [("gzip", ⟨GZipEncodingReader, false⟩),
   ("x-gzip", ⟨GZipEncodingReader, true⟩),
   ("deflate", ⟨DeflateEncodingReader, false⟩)]

/-- The default options of `RequestBodyHandler`. -/
def defaultOptions : Options :=
  { maxContentLength := 10 * 1024 * 1024
    requireContentLength := false
    supportedEncodings := defaultEncodings
    handleError := some StatusOnlyRequestBodyErrorHandler }

/-! ### Basic state-transition lemmas -/

lemma lrInit_of_initialized (r : LazyReader) (h : r.initialized = true) : lrInit r = r := by
  simp [lrInit, h]

lemma buildPipeline_initialized (r : LazyReader) :
    (buildPipeline r).initialized = r.initialized := by
  unfold buildPipeline
  split
  · rfl
  split
  · rfl
  · rfl

lemma initBody_initialized (r : LazyReader) : (initBody r).initialized = r.initialized := by
  unfold initBody
  split
  · rfl
  split
  · rfl
  split
  · rfl
  · exact buildPipeline_initialized r

/-! ### Branch characterizations of `initBody` -/

lemma initBody_skip (r : LazyReader) (h : r.contentLength = 0) : initBody r = r := by
  simp [initBody, h]

lemma initBody_lengthRequired (r : LazyReader) (h0 : r.contentLength ≠ 0)
    (h1 : r.contentLength < 0) (h2 : r.options.requireContentLength = true) :
    initBody r = { r with initErr := some .lengthRequired } := by
  unfold initBody
  rw [if_neg h0, if_pos ⟨h1, h2⟩]

lemma initBody_tooLarge (r : LazyReader) (h0 : r.contentLength ≠ 0)
    (h1 : ¬(r.contentLength < 0 ∧ r.options.requireContentLength))
    (h2 : r.options.maxContentLength > -1)
    (h3 : r.contentLength > r.options.maxContentLength) :
    initBody r = { r with initErr := some (.contentTooLarge r.options.maxContentLength) } := by
  unfold initBody
  rw [if_neg h0, if_neg h1, if_pos ⟨h2, h3⟩]

lemma initBody_build (r : LazyReader) (h0 : r.contentLength ≠ 0)
    (h1 : ¬(r.contentLength < 0 ∧ r.options.requireContentLength))
    (h2 : ¬(r.options.maxContentLength > -1 ∧ r.contentLength > r.options.maxContentLength)) :
    initBody r = buildPipeline r := by
  unfold initBody
  rw [if_neg h0, if_neg h1, if_neg h2]

lemma buildPipeline_error (r : LazyReader) (tok : String)
    (h : (if r.contentEncoding ≠ "" then
            collectEncodings r.options.supportedEncodings (splitComma r.contentEncoding.toList)
          else .ok []) = .error tok) :
    buildPipeline r = { r with initErr := some (.unsupportedMediaType tok) } := by
  unfold buildPipeline
  rw [h]

lemma buildPipeline_ok (r : LazyReader) (encodings : List EncodingReader) (content : Bytes)
    (h1 : (if r.contentEncoding ≠ "" then
            collectEncodings r.options.supportedEncodings (splitComma r.contentEncoding.toList)
           else .ok []) = .ok encodings)
    (h2 : applyDecoders encodings.reverse r.reader.data = .ok content) :
    buildPipeline r = { r with reader :=
        { data := content
          terminal := r.reader.terminal
          closeErr := r.reader.closeErr
          limit := if r.options.maxContentLength > 0 then
                     some (r.options.maxContentLength, r.options.maxContentLength)
                   else none } } := by
  unfold buildPipeline
  simp only [h1, h2]

lemma lrInit_initialized (r : LazyReader) : (lrInit r).initialized = true := by
  unfold lrInit
  split
  · assumption
  · rfl

lemma lrInit_of_uninitialized (r : LazyReader) (h : r.initialized = false) :
    (lrInit r).initCount = r.initCount + 1 := by
  simp [lrInit, h]

lemma finishRead_fst (r : LazyReader) (e : ErrVal) : (finishRead r e).1 = r := by
  unfold finishRead
  split <;> rfl

lemma lazyClose_fst (r : LazyReader) : (lazyClose r).1 = r := by
  unfold lazyClose
  split
  · split <;> rfl
  · rfl

/-- The state after one `Read`, in closed form. -/
def lazyReadState (r : LazyReader) : LazyReader :=
  match (lrInit r).initErr with
  | some _ => lrInit r
  | none => { lrInit r with reader := (read1 (lrInit r).reader).1 }

lemma lazyRead_fst (r : LazyReader) : (lazyRead r).1 = lazyReadState r := by
  simp only [lazyRead, lazyReadState]
  cases he : (lrInit r).initErr with
  | some e => simp only [he, finishRead_fst]
  | none =>
    simp only [he]
    cases hr : read1 (lrInit r).reader with
    | mk p res => cases res <;> simp [finishRead_fst]

/-- After one `Read` from an already-initialized reader, the fields
governed by initialization are untouched; the held pipeline is untouched
whenever a deferred error exists. -/
lemma lazyRead_preserves (r : LazyReader) (h : r.initialized = true) :
    (lazyRead r).1.initialized = true ∧
    (lazyRead r).1.initCount = r.initCount ∧
    (lazyRead r).1.initErr = r.initErr ∧
    (r.initErr.isSome = true → (lazyRead r).1.reader = r.reader) := by
  rw [lazyRead_fst]
  unfold lazyReadState
  rw [lrInit_of_initialized r h]
  cases he : r.initErr with
  | some e => exact ⟨h, rfl, he, fun _ => rfl⟩
  | none => exact ⟨h, rfl, he, by simp [he]⟩

lemma lazyRead_fresh (r : LazyReader) (h : r.initialized = false) :
    (lazyRead r).1.initialized = true ∧ (lazyRead r).1.initCount = r.initCount + 1 := by
  rw [lazyRead_fst]
  unfold lazyReadState
  cases he : (lrInit r).initErr with
  | some e =>
    exact ⟨lrInit_initialized r, lrInit_of_uninitialized r h⟩
  | none =>
    exact ⟨lrInit_initialized r, lrInit_of_uninitialized r h⟩

lemma lrStep_preserves (r : LazyReader) (op : Op) (h : r.initialized = true) :
    (lrStep r op).initialized = true ∧
    (lrStep r op).initCount = r.initCount ∧
    (lrStep r op).initErr = r.initErr ∧
    (r.initErr.isSome = true → (lrStep r op).reader = r.reader) := by
  cases op with
  | read => exact lazyRead_preserves r h
  | close => rw [show lrStep r .close = r from lazyClose_fst r]; exact ⟨h, rfl, rfl, fun _ => rfl⟩

/-- **C1.** For every Lazy Body Reader, initialization runs at most once
over any sequence of `Read`/`Close` calls (`initCount` never exceeds 1
from a fresh reader), and once the reader is initialized the outcome is
final: the ghost execution counter, the deferred error, and — whenever a
deferred error exists — the held pipeline are all unchanged by every
subsequent `Read` and `Close`. -/
theorem init_at_most_once_and_final (r : LazyReader) (ops : List Op) :
    (r.initialized = false → r.initCount = 0 → (lrRun r ops).initCount ≤ 1) ∧
    (r.initialized = true →
      (lrRun r ops).initialized = true ∧
      (lrRun r ops).initCount = r.initCount ∧
      (lrRun r ops).initErr = r.initErr ∧
      (r.initErr.isSome = true → (lrRun r ops).reader = r.reader)) := by
  induction ops generalizing r with
  | nil =>
    exact ⟨fun _ hc => by simp [lrRun, hc], fun h => ⟨h, rfl, rfl, fun _ => rfl⟩⟩
  | cons op rest ih =>
    have hrun : lrRun r (op :: rest) = lrRun (lrStep r op) rest := rfl
    constructor
    · intro h0 hc
      cases op with
      | close =>
        rw [hrun, show lrStep r .close = r from lazyClose_fst r]
        exact (ih r).1 h0 hc
      | read =>
        have hf := lazyRead_fresh r h0
        have := (ih (lrStep r .read)).2 hf.1
        rw [hrun, this.2.1, show (lrStep r Op.read).initCount = r.initCount + 1 from hf.2, hc]
    · intro h1
      have hp := lrStep_preserves r op h1
      have := (ih (lrStep r op)).2 hp.1
      rw [hrun]
      refine ⟨this.1, by rw [this.2.1, hp.2.1], by rw [this.2.2.1, hp.2.2.1], ?_⟩
      intro hs
      have hs' : (lrStep r op).initErr.isSome = true := by rw [hp.2.2.1]; exact hs
      rw [this.2.2.2 hs', hp.2.2.2 hs]

/-- Witness for C1 at a concrete fresh reader and a concrete
read/read/close/read sequence. -/
theorem init_at_most_once_and_final_witness :
    (lrRun
      { initialized := false, initCount := 0, contentLength := 3,
        contentEncoding := "", initErr := none, options := defaultOptions,
        reader := { data := [1, 2, 3], terminal := .eofT, closeErr := none, limit := none } }
      [.read, .read, .close, .read]).initCount ≤ 1 :=
  (init_at_most_once_and_final _ [.read, .read, .close, .read]).1 rfl rfl

/-! ### C2: the error taxonomy surfaced to the consumer -/

/-- A `Read` result surfaces only typed errors or end-of-stream (never a
raw error). -/
def surfacedOk : ReadResult → Bool
  | .ret _ none => true
  | .ret _ (some .eofE) => true
  | .ret _ (some (.typedE _)) => true
  | .ret _ (some (.rawE _)) => false
  | .panicked _ _ => true

/-- A `Close` result surfaces only typed errors or nothing. -/
def closeSurfacedOk : CloseResult → Bool
  | .retC none => true
  | .retC (some .eofE) => true
  | .retC (some (.typedE _)) => true
  | .retC (some (.rawE _)) => false
  | .panicC _ _ => true

lemma surfacedOk_finishRead (r : LazyReader) (e : ErrVal) (h : ∀ m, e ≠ .rawE m) :
    surfacedOk (finishRead r e).2 = true := by
  unfold finishRead handleError
  cases hh : r.options.handleError <;> cases e <;> simp_all [surfacedOk]

/-- A reader whose built pipeline fails on `Close` with a raw error. -/
def closeFailReader : LazyReader :=
  { initialized := true, initCount := 1, contentLength := 4, contentEncoding := "",
    initErr := none, options := defaultOptions,
    reader := { data := [1, 2], terminal := .eofT, closeErr := some "disk failure",
                limit := none } }

/-- **C2 counterexample.** An underlying I/O failure arising during
`Close` of the built pipeline is returned raw and unwrapped — it is not
reclassified as MalformedBody — refuting the claim for the `Close` side. -/
theorem close_raw_error_not_reclassified :
    (lazyClose closeFailReader).2 = .retC (some (.rawE "disk failure")) ∧
    closeSurfacedOk (lazyClose closeFailReader).2 = false := ⟨rfl, rfl⟩

/-- **C2 amended.** Every failure surfacing from `Read` is one of the
four typed error kinds or end-of-stream (raw read failures are
reclassified: `MaxBytesError` to BodyTooLarge, others to MalformedBody),
and a deferred initialization error surfacing through `Close` is typed;
but an error from closing the built pipeline itself is returned
unwrapped. -/
theorem read_errors_always_typed (r : LazyReader) :
    surfacedOk (lazyRead r).2 = true ∧
    (r.initErr.isSome = true → closeSurfacedOk (lazyClose r).2 = true) := by
  constructor
  · simp only [lazyRead]
    cases he : (lrInit r).initErr with
    | some e => simp only [he]; exact surfacedOk_finishRead _ _ (by intro m h; cases h)
    | none =>
      simp only [he]
      cases hr : read1 (lrInit r).reader with
      | mk p res =>
        cases res with
        | bytes b => simp [surfacedOk]
        | eofR => exact surfacedOk_finishRead _ _ (by intro m h; cases h)
        | rawR m => exact surfacedOk_finishRead _ _ (by intro m h; cases h)
        | tooBig o => exact surfacedOk_finishRead _ _ (by intro m h; cases h)
  · intro hs
    cases he : r.initErr with
    | none => rw [he] at hs; cases hs
    | some e =>
      simp only [lazyClose, he]
      unfold handleError
      cases hh : r.options.handleError <;> simp [closeSurfacedOk]

/-- Witness for C2 (amended) at a concrete reader holding a deferred
error. -/
theorem read_errors_always_typed_witness :
    surfacedOk
        (lazyRead
          { initialized := true, initCount := 1, contentLength := -1, contentEncoding := "",
            initErr := some .lengthRequired, options := defaultOptions,
            reader := { data := [], terminal := .eofT, closeErr := none, limit := none } }).2
      = true ∧
    closeSurfacedOk
        (lazyClose
          { initialized := true, initCount := 1, contentLength := -1, contentEncoding := "",
            initErr := some .lengthRequired, options := defaultOptions,
            reader := { data := [], terminal := .eofT, closeErr := none, limit := none } }).2
      = true :=
  ⟨(read_errors_always_typed _).1, (read_errors_always_typed _).2 rfl⟩

/-! ### C3: the error-handling strategy and what the consumer sees -/

/-- A reader with a deferred typed error under the default (status-only)
strategy. -/
def deferredErrorReader : LazyReader :=
  { initialized := true, initCount := 1, contentLength := -1, contentEncoding := "",
    initErr := some .lengthRequired, options := defaultOptions,
    reader := { data := [], terminal := .eofT, closeErr := none, limit := none } }

/-- **C3 counterexample.** Under the status-only default strategy, a
`Read` hitting a typed error does NOT return that error to its caller:
`handleError` panics (halting the handler), the middleware recovers the
panic and only then writes the recommended status code. -/
theorem status_only_read_panics :
    (lazyRead deferredErrorReader).2
        = .panicked .lengthRequired StatusOnlyRequestBodyErrorHandler ∧
    (∀ b e, (lazyRead deferredErrorReader).2 ≠ .ret b e) := by
  refine ⟨rfl, fun b e h => ?_⟩
  have h' : ReadResult.panicked .lengthRequired StatusOnlyRequestBodyErrorHandler
      = .ret b e := h
  exact ReadResult.noConfusion h'

/-- **C3 amended.** On a deferred typed error: a nil ("none") strategy
returns the typed error unchanged to the caller of `Read` and writes
nothing; a non-nil strategy (the status-only default included) never
returns the error to the caller — the `Read` panics, the middleware
recovers and invokes the strategy on the response, the status-only
default writing exactly the recommended status code. -/
theorem strategy_controls_response_only (r : LazyReader) (e : RequestBodyError)
    (h1 : r.initialized = true) (h2 : r.initErr = some e) :
    (r.options.handleError = none →
      (lazyRead r).2 = .ret none (some (.typedE e)) ∧
        recoverWrites (lazyRead r).2 = []) ∧
    (∀ s, r.options.handleError = some s →
      (lazyRead r).2 = .panicked e s ∧ recoverWrites (lazyRead r).2 = s e) ∧
    (r.options.handleError = some StatusOnlyRequestBodyErrorHandler →
      recoverWrites (lazyRead r).2 = [.writeHeader e.recommendedStatusCode]) := by
  have hread : (lazyRead r).2 = (finishRead r (.typedE e)).2 := by
    simp only [lazyRead]
    rw [lrInit_of_initialized r h1]
    simp only [h2]
  refine ⟨fun hn => ?_, fun s hs => ?_, fun hs => ?_⟩
  · rw [hread]; unfold finishRead handleError; rw [hn]; exact ⟨rfl, rfl⟩
  · rw [hread]; unfold finishRead handleError; rw [hs]; exact ⟨rfl, rfl⟩
  · rw [hread]; unfold finishRead handleError; rw [hs]; rfl

/-- Witness for C3 (amended): under the status-only default the recover
block writes status 411 for a deferred LengthRequired. -/
theorem strategy_controls_response_only_witness :
    recoverWrites (lazyRead deferredErrorReader).2 = [.writeHeader 411] :=
  (strategy_controls_response_only deferredErrorReader .lengthRequired rfl rfl).2.2 rfl

/-! ### C6/C7 helpers -/

lemma lrInit_fresh_eq (r : LazyReader) (h : r.initialized = false) :
    lrInit r = { initBody r with initialized := true, initCount := r.initCount + 1 } := by
  simp [lrInit, h]

lemma lazyRead_deferred (r : LazyReader) (e : RequestBodyError)
    (h : (lrInit r).initErr = some e) :
    lazyRead r = finishRead (lrInit r) (.typedE e) := by
  simp only [lazyRead, h]

lemma failsWithB_finishRead (r : LazyReader) (e : RequestBodyError) :
    failsWithB (finishRead r (.typedE e)).2 e = true := by
  unfold finishRead handleError
  cases r.options.handleError <;> simp [failsWithB]

/-! ### C6: the meaning of a zero / negative size ceiling -/

/-- A fresh reader with a zero ceiling and declared length 1. -/
def zeroCeilingReader : LazyReader :=
  { initialized := false, initCount := 0, contentLength := 1, contentEncoding := "",
    initErr := none,
    options := { defaultOptions with maxContentLength := 0, handleError := none },
    reader := { data := [7], terminal := .eofT, closeErr := none, limit := none } }

/-- **C6 counterexample.** A zero ceiling does not disable the ceiling
check: with declared length 1 and ceiling 0, initialization fails with
BodyTooLarge(0) (the declared-length pre-check uses `> -1`, so zero is
an enforced bound there). -/
theorem zero_ceiling_still_prechecks :
    (lrInit zeroCeilingReader).initErr = some (.contentTooLarge 0) := rfl

/-- **C6 amended.** A zero ceiling disables only the actual-bytes
counting guard while the declared-length pre-check still applies (any
positive declared length fails with BodyTooLarge(0)); a negative ceiling
disables the ceiling entirely — no BodyTooLarge can arise from
initialization and no counting guard is installed. -/
theorem zero_and_negative_ceiling (r : LazyReader)
    (h0 : r.initErr = none) (h1 : r.reader.limit = none) :
    (r.options.maxContentLength = 0 → 0 < r.contentLength →
      (initBody r).initErr = some (.contentTooLarge 0)) ∧
    (r.options.maxContentLength = 0 → (initBody r).reader.limit = none) ∧
    (r.options.maxContentLength < 0 →
      (∀ l, (initBody r).initErr ≠ some (.contentTooLarge l)) ∧
      (initBody r).reader.limit = none) := by
  have hbuildLimit : ¬r.options.maxContentLength > 0 → (buildPipeline r).reader.limit = none := by
    intro hng
    unfold buildPipeline
    split
    · exact h1
    split
    · exact h1
    · exact if_neg hng
  have hbuildErr : ∀ l, r.options.maxContentLength < 0 →
      (buildPipeline r).initErr ≠ some (.contentTooLarge l) := by
    intro l _
    unfold buildPipeline
    split
    · intro hc; cases hc
    split
    · intro hc; cases hc
    · intro hc
      have hc' : r.initErr = some (.contentTooLarge l) := hc
      rw [h0] at hc'
      cases hc'
  refine ⟨fun hm hcl => ?_, fun hm => ?_, fun hm => ?_⟩
  · rw [initBody_tooLarge r (by omega) (fun hc => absurd hc.1 (by omega)) (by omega) (by omega),
      hm]
  · by_cases hcl0 : r.contentLength = 0
    · rw [initBody_skip r hcl0]; exact h1
    by_cases hlr : r.contentLength < 0 ∧ r.options.requireContentLength
    · rw [initBody_lengthRequired r hcl0 hlr.1 hlr.2]; exact h1
    by_cases htl : r.options.maxContentLength > -1 ∧ r.contentLength > r.options.maxContentLength
    · rw [initBody_tooLarge r hcl0 hlr htl.1 htl.2]; exact h1
    · rw [initBody_build r hcl0 hlr htl]
      exact hbuildLimit (by omega)
  · constructor
    · intro l
      by_cases hcl0 : r.contentLength = 0
      · rw [initBody_skip r hcl0, h0]; intro hc; cases hc
      by_cases hlr : r.contentLength < 0 ∧ r.options.requireContentLength
      · rw [initBody_lengthRequired r hcl0 hlr.1 hlr.2]; intro hc; cases hc
      by_cases htl : r.options.maxContentLength > -1 ∧ r.contentLength > r.options.maxContentLength
      · exact absurd htl.1 (by omega)
      · rw [initBody_build r hcl0 hlr htl]
        exact hbuildErr l hm
    · by_cases hcl0 : r.contentLength = 0
      · rw [initBody_skip r hcl0]; exact h1
      by_cases hlr : r.contentLength < 0 ∧ r.options.requireContentLength
      · rw [initBody_lengthRequired r hcl0 hlr.1 hlr.2]; exact h1
      by_cases htl : r.options.maxContentLength > -1 ∧ r.contentLength > r.options.maxContentLength
      · exact absurd htl.1 (by omega)
      · rw [initBody_build r hcl0 hlr htl]
        exact hbuildLimit (by omega)

/-- A fresh reader with a negative ceiling and declared length 5. -/
def negCeilingReader : LazyReader :=
  { initialized := false, initCount := 0, contentLength := 5, contentEncoding := "",
    initErr := none,
    options := { defaultOptions with maxContentLength := -1, handleError := none },
    reader := { data := [7], terminal := .eofT, closeErr := none, limit := none } }

/-- Witness for C6 (amended) at concrete readers with zero and negative
ceilings. -/
theorem zero_and_negative_ceiling_witness :
    (initBody zeroCeilingReader).initErr = some (.contentTooLarge 0) ∧
    (initBody negCeilingReader).reader.limit = none :=
  ⟨(zero_and_negative_ceiling zeroCeilingReader rfl rfl).1 rfl (by decide),
   ((zero_and_negative_ceiling negCeilingReader rfl rfl).2.2 (by decide)).2⟩

/-! ### C7: what triggers initialization -/

/-- A fresh reader that requires a declared length but has none, and is
closed without ever being read. -/
def neverReadReader : LazyReader :=
  { initialized := false, initCount := 0, contentLength := -1, contentEncoding := "",
    initErr := none,
    options := { defaultOptions with requireContentLength := true },
    reader := { data := [], terminal := .eofT, closeErr := none, limit := none } }

/-- **C7 counterexample.** `Close` does not trigger initialization: with
`requireContentLength = true` and no declared length, the first `Close`
on a never-read body returns success (the underlying close result), not
LengthRequired, and the initialization steps never run. -/
theorem first_close_does_not_initialize :
    (lazyClose neverReadReader).2 = .retC none ∧
    (lazyClose neverReadReader).1.initialized = false ∧
    (lazyClose neverReadReader).1.initCount = 0 := ⟨rfl, rfl, rfl⟩

/-- **C7 amended.** Initialization is triggered exactly once, on the
first read attempt (`Close` never triggers it): with
`requireContentLength = true` and no declared length, the first `Read`
fails with LengthRequired before any decoding is attempted (the held
stream is untouched), a second `Read` does not re-run initialization,
and a `Close` leaves the state unchanged. -/
theorem first_read_triggers_init (r : LazyReader)
    (hfresh : r.initialized = false) (hie : r.initErr = none)
    (hreq : r.options.requireContentLength = true) (hcl : r.contentLength < 0) :
    failsWithB (lazyRead r).2 .lengthRequired = true ∧
    (lazyRead r).1.initCount = r.initCount + 1 ∧
    (lazyRead r).1.reader = r.reader ∧
    (lazyRead (lazyRead r).1).1.initCount = r.initCount + 1 ∧
    (lazyClose r).1 = r := by
  have hib : initBody r = { r with initErr := some .lengthRequired } :=
    initBody_lengthRequired r (by omega) hcl hreq
  have hinit := lrInit_fresh_eq r hfresh
  have hie' : (lrInit r).initErr = some .lengthRequired := by rw [hinit, hib]
  have hr2 := lazyRead_deferred r .lengthRequired hie'
  have hfst : (lazyRead r).1 = lrInit r := by rw [hr2, finishRead_fst]
  refine ⟨?_, ?_, ?_, ?_, lazyClose_fst r⟩
  · rw [hr2]; exact failsWithB_finishRead _ _
  · rw [hfst, hinit]
  · rw [hfst, hinit, hib]
  · have hpres := lazyRead_preserves (lazyRead r).1
      (by rw [hfst]; exact lrInit_initialized r)
    rw [hpres.2.1, hfst, hinit]

/-- Witness for C7 (amended) at the concrete never-read reader. -/
theorem first_read_triggers_init_witness :
    failsWithB (lazyRead neverReadReader).2 .lengthRequired = true ∧
    (lazyRead neverReadReader).1.initCount = 0 + 1 :=
  ⟨(first_read_triggers_init neverReadReader rfl rfl rfl (by decide)).1,
   (first_read_triggers_init neverReadReader rfl rfl rfl (by decide)).2.1⟩

/-! ### C5: the byte-counting guard on the decoded stream -/

lemma read1_nil (p : PReader) (h : p.data = []) (ht : p.terminal = .eofT) :
    read1 p = (p, .eofR) := by
  unfold read1
  cases hl : p.limit with
  | none => rw [h, ht]
  | some pr => cases pr with
    | mk o rem => rw [h, ht]

lemma read1_cons_nolimit (p : PReader) (b : Nat) (rest : Bytes)
    (h : p.data = b :: rest) (hl : p.limit = none) :
    read1 p = ({ p with data := rest }, .bytes b) := by
  unfold read1
  simp only [hl, h]

lemma read1_cons_limit_ok (p : PReader) (b : Nat) (rest : Bytes) (o rem : Int)
    (h : p.data = b :: rest) (hl : p.limit = some (o, rem)) (hr : 1 ≤ rem) :
    read1 p = ({ p with data := rest, limit := some (o, rem - 1) }, .bytes b) := by
  unfold read1
  simp only [hl, h]
  rw [if_pos hr]

lemma read1_cons_limit_exceeded (p : PReader) (b : Nat) (rest : Bytes) (o rem : Int)
    (h : p.data = b :: rest) (hl : p.limit = some (o, rem)) (hr : ¬1 ≤ rem) :
    read1 p = (p, .tooBig o) := by
  unfold read1
  simp only [hl, h]
  rw [if_neg hr]

lemma finishRead_eof (r : LazyReader) :
    finishRead r .eofE = (r, .ret none (some .eofE)) := by
  unfold finishRead handleError
  cases r.options.handleError <;> rfl

/-- `lazyReader.Read` on an already-initialized, error-free reader. -/
lemma lazyRead_ready (r : LazyReader) (h1 : r.initialized = true) (h2 : r.initErr = none) :
    lazyRead r =
      match read1 r.reader with
      | (p, .bytes b) => ({ r with reader := p }, .ret (some b) none)
      | (p, .eofR) => finishRead { r with reader := p } .eofE
      | (p, .rawR m) => finishRead { r with reader := p } (.typedE (.badRequest m))
      | (p, .tooBig o) => finishRead { r with reader := p } (.typedE (.contentTooLarge o)) := by
  simp only [lazyRead]
  rw [lrInit_of_initialized r h1]
  simp only [h2]
  cases hr : read1 r.reader with
  | mk p res => cases res <;> rfl

/-- A `Read` that goes through `finishRead` with a typed error makes
`drain` stop with that error and no further bytes. -/
lemma drain_step_finish (fuel : Nat) (r r' : LazyReader) (e : RequestBodyError)
    (h : lazyRead r = finishRead r' (.typedE e)) :
    drain (fuel + 1) r = ([], some (.typedE e)) := by
  simp only [drain, h]
  unfold finishRead handleError
  cases r'.options.handleError <;> simp

lemma drain_no_limit : ∀ (bs : Bytes) (fuel : Nat) (r : LazyReader),
    r.initialized = true → r.initErr = none → r.reader.terminal = .eofT →
    r.reader.limit = none → r.reader.data = bs → bs.length < fuel →
    drain fuel r = (bs, some .eofE)
  | _, 0, _, _, _, _, _, _, hf => absurd hf (by omega)
  | [], fuel + 1, r, h1, h2, ht, hl, hd, _ => by
    have hr := lazyRead_ready r h1 h2
    rw [read1_nil r.reader hd ht] at hr
    simp only [drain, hr, finishRead_eof]
  | b :: rest, fuel + 1, r, h1, h2, ht, hl, hd, hf => by
    have hr := lazyRead_ready r h1 h2
    rw [read1_cons_nolimit r.reader b rest hd hl] at hr
    simp only [drain, hr]
    rw [drain_no_limit rest fuel { r with reader := { r.reader with data := rest } }
      h1 h2 ht hl rfl (by simp at hf ⊢; omega)]

lemma drain_limited : ∀ (bs : Bytes) (rem : Int) (fuel : Nat) (r : LazyReader) (orig : Int),
    r.initialized = true → r.initErr = none → r.reader.terminal = .eofT →
    r.reader.limit = some (orig, rem) → r.reader.data = bs → 0 ≤ rem →
    bs.length < fuel →
    drain fuel r =
      (if (bs.length : Int) ≤ rem then (bs, some .eofE)
       else (bs.take rem.toNat, some (.typedE (.contentTooLarge orig))))
  | _, _, 0, _, _, _, _, _, _, _, _, hf => absurd hf (by omega)
  | [], rem, fuel + 1, r, orig, h1, h2, ht, hl, hd, hrem, _ => by
    have hr := lazyRead_ready r h1 h2
    rw [read1_nil r.reader hd ht] at hr
    simp only [drain, hr, finishRead_eof]
    rw [if_pos (by simp; omega)]
  | b :: rest, rem, fuel + 1, r, orig, h1, h2, ht, hl, hd, hrem, hf => by
    by_cases h1rem : 1 ≤ rem
    · have hr := lazyRead_ready r h1 h2
      rw [read1_cons_limit_ok r.reader b rest orig rem hd hl h1rem] at hr
      simp only [drain, hr]
      rw [drain_limited rest (rem - 1) fuel
        { r with reader := { r.reader with data := rest, limit := some (orig, rem - 1) } }
        orig h1 h2 ht rfl rfl (by omega) (by simp at hf ⊢; omega)]
      by_cases hle : ((b :: rest).length : Int) ≤ rem
      · rw [if_pos (by simp at hle ⊢; omega), if_pos hle]
      · rw [if_neg (by simp at hle ⊢; omega), if_neg hle]
        have htn : rem.toNat = (rem - 1).toNat + 1 := by omega
        rw [htn, List.take_succ_cons]
    · have hrem0 : rem = 0 := by omega
      have hr := lazyRead_ready r h1 h2
      rw [read1_cons_limit_exceeded r.reader b rest orig rem hd hl h1rem] at hr
      rw [drain_step_finish fuel r _ _ hr, if_neg (by simp; omega), hrem0]
      simp

/-- `Read` before initialization behaves as `Read` after running the
once-guard. -/
lemma lazyRead_uninit (r : LazyReader) : lazyRead r = lazyRead (lrInit r) := by
  conv_rhs => simp only [lazyRead]
  rw [lrInit_of_initialized (lrInit r) (lrInit_initialized r)]
  simp only [lazyRead]

lemma drain_succ_init (fuel : Nat) (r : LazyReader) :
    drain (fuel + 1) r = drain (fuel + 1) (lrInit r) := by
  simp only [drain]
  rw [lazyRead_uninit r]

/-- A fresh reader with ceiling 1 and an absent declared length whose
decoded size is 2 (= ceiling + 1). -/
def overCeilingReader : LazyReader :=
  { initialized := false, initCount := 0, contentLength := -1, contentEncoding := "",
    initErr := none,
    options := { defaultOptions with maxContentLength := 1, handleError := none },
    reader := { data := [7, 8], terminal := .eofT, closeErr := none, limit := none } }

/-- **C5 counterexample.** With ceiling L = 1 and decoded size S = L + 1
= 2, the consumer receives BodyTooLarge(1) only after one byte — not
zero bytes — has been delivered: `http.MaxBytesReader` hands out bytes
up to the limit before failing. -/
theorem guard_delivers_ceiling_bytes_first :
    drain 4 overCeilingReader = ([7], some (.typedE (.contentTooLarge 1))) ∧
    ¬([7] : Bytes).length = 0 := by
  constructor
  · rfl
  · decide

/-- **C5 amended.** For every ceiling L > 0 and body of decoded size S
with an absent declared length: reading through the wrapped body
succeeds fully (all S bytes then end-of-stream) iff S ≤ L; otherwise the
counting guard yields BodyTooLarge(L) after delivering exactly the first
L bytes (so for S = L + 1, L bytes — not zero — reach the consumer).
Zero bytes would only be withheld by the declared-length pre-check,
which cannot fire when the length is absent. -/
theorem ceiling_guard_on_decoded_stream (L : Int) (bs : Bytes) (r : LazyReader)
    (hL : 0 < L) (hfresh : r.initialized = false) (hie : r.initErr = none)
    (hcl : r.contentLength = -1) (hreq : r.options.requireContentLength = false)
    (hmax : r.options.maxContentLength = L) (henc : r.contentEncoding = "")
    (hdata : r.reader.data = bs) (hterm : r.reader.terminal = .eofT)
    (hlim : r.reader.limit = none) :
    drain (bs.length + 2) r =
      (if (bs.length : Int) ≤ L then (bs, some .eofE)
       else (bs.take L.toNat, some (.typedE (.contentTooLarge L)))) := by
  have hb : initBody r = { r with reader :=
      { data := bs, terminal := .eofT, closeErr := r.reader.closeErr,
        limit := some (L, L) } } := by
    rw [initBody_build r (by omega)
      (fun hc => by rw [hreq] at hc; exact absurd hc.2 (by simp))
      (fun hc => by omega),
      buildPipeline_ok r [] r.reader.data (by rw [henc]; simp) rfl,
      hdata, hterm, hmax, if_pos hL]
  have hinit : lrInit r =
      { r with
          initialized := true
          initCount := r.initCount + 1
          reader := { data := bs, terminal := .eofT, closeErr := r.reader.closeErr,
                      limit := some (L, L) } } := by
    rw [lrInit_fresh_eq r hfresh, hb]
  rw [show bs.length + 2 = (bs.length + 1) + 1 from rfl, drain_succ_init, hinit]
  exact drain_limited bs L (bs.length + 1 + 1) _ L rfl hie rfl rfl rfl (by omega) (by omega)

/-- Witness for C5 (amended) at L = 2 and a 3-byte body. -/
theorem ceiling_guard_on_decoded_stream_witness :
    drain 5
      { initialized := false, initCount := 0, contentLength := -1, contentEncoding := "",
        initErr := none,
        options := { defaultOptions with maxContentLength := 2, handleError := none },
        reader := { data := [5, 6, 7], terminal := .eofT, closeErr := none, limit := none } } =
      (if ((3 : Nat) : Int) ≤ 2 then ([5, 6, 7], some .eofE)
       else (([5, 6, 7] : Bytes).take (2 : Int).toNat,
             some (.typedE (.contentTooLarge 2)))) :=
  ceiling_guard_on_decoded_stream 2 [5, 6, 7] _ (by decide) rfl rfl rfl rfl rfl rfl rfl rfl rfl

/-! ### Header parsing: `strings.Split` / `strings.TrimSpace` lemmas -/

lemma splitComma_no_comma : ∀ (l : List Char), ',' ∉ l → splitComma l = [l]
  | [], _ => rfl
  | c :: cs, h => by
    have hc : ¬(c = ',') := fun hc => h (hc ▸ List.mem_cons_self c cs)
    have hcs : ',' ∉ cs := fun hm => h (List.mem_cons_of_mem c hm)
    unfold splitComma
    rw [if_neg hc, splitComma_no_comma cs hcs]

lemma splitComma_append : ∀ (t rest : List Char), ',' ∉ t →
    splitComma (t ++ ',' :: rest) = t :: splitComma rest
  | [], rest, _ => by
    rw [List.nil_append]
    simp only [splitComma]
    rw [if_pos trivial]
  | c :: t', rest, h => by
    have hc : ¬(c = ',') := fun hc => h (hc ▸ List.mem_cons_self c _)
    have ht' : ',' ∉ t' := fun hm => h (List.mem_cons_of_mem c hm)
    rw [List.cons_append]
    simp only [splitComma]
    rw [if_neg hc, splitComma_append t' rest ht']

lemma splitComma_space (l s : List Char) (ss : List (List Char))
    (h : splitComma l = s :: ss) : splitComma (' ' :: l) = (' ' :: s) :: ss := by
  unfold splitComma
  rw [if_neg (by decide), h]

/-- The header string "e1, e2, ..., en". -/
def joinTokens : List (List Char) → List Char
  | [] => []
  | [t] => t
  | t :: ts => t ++ ',' :: ' ' :: joinTokens ts

/-- The header string formed from a list of token names. -/
def joinHeader (names : List String) : String :=
  String.mk (joinTokens (names.map String.toList))

/-- The segments `strings.Split` recovers from a joined header: every
token after the first carries the separator space. -/
def spaced : List (List Char) → List (List Char)
  | [] => []
  | t :: ts => t :: ts.map (fun u => ' ' :: u)

lemma splitComma_joinTokens : ∀ (ts : List (List Char)), ts ≠ [] →
    (∀ t ∈ ts, ',' ∉ t) → splitComma (joinTokens ts) = spaced ts
  | [], h, _ => absurd rfl h
  | [t], _, hc => by
    show splitComma (joinTokens [t]) = [t]
    exact splitComma_no_comma t (hc t (List.mem_singleton.mpr rfl))
  | t :: u :: rest, _, hc => by
    have h1 : joinTokens (t :: u :: rest) = t ++ ',' :: ' ' :: joinTokens (u :: rest) := rfl
    have ih := splitComma_joinTokens (u :: rest) (by simp)
      (fun x hx => hc x (List.mem_cons_of_mem t hx))
    rw [h1, splitComma_append t _ (hc t (List.mem_cons_self t _)),
      splitComma_space _ u (rest.map (fun v => ' ' :: v)) (by rw [ih]; rfl)]
    rfl

lemma goTrimList_space_cons (l : List Char) : goTrimList (' ' :: l) = goTrimList l := by
  unfold goTrimList
  rw [List.dropWhile_cons_of_pos (by decide)]

lemma joinTokens_ne_nil : ∀ (ts : List (List Char)), ts ≠ [] → (∀ t ∈ ts, t ≠ []) →
    joinTokens ts ≠ []
  | [], h, _ => absurd rfl h
  | [t], _, hne => by
    show t ≠ []
    exact hne t (List.mem_singleton.mpr rfl)
  | t :: u :: rest, _, hne => by
    show t ++ ',' :: ' ' :: joinTokens (u :: rest) ≠ []
    cases t <;> simp

lemma joinHeader_ne_empty (names : List String) (h : names ≠ [])
    (hne : ∀ n ∈ names, n ≠ "") : joinHeader names ≠ "" := by
  intro hcon
  have hl : joinTokens (names.map String.toList) = [] := congrArg String.toList hcon
  refine joinTokens_ne_nil (names.map String.toList) (by simpa using h) ?_ hl
  intro t ht htl
  obtain ⟨n, hn, rfl⟩ := List.mem_map.mp ht
  apply hne n hn
  cases n with
  | mk ndata =>
    cases ndata with
    | nil => rfl
    | cons a as => exact List.noConfusion htl

/-! ### `collectEncodings` characterizations -/

lemma collectEncodings_error_of_unknown (reg : List (String × Encoding)) :
    ∀ (pre : List (List Char)) (seg : List Char) (post : List (List Char)),
      (∀ s ∈ pre, (List.lookup (String.mk (goTrimList s)) reg).isSome = true) →
      List.lookup (String.mk (goTrimList seg)) reg = none →
      collectEncodings reg (pre ++ seg :: post) = .error (String.mk (goTrimList seg))
  | [], seg, post, _, hseg => by
    show collectEncodings reg (seg :: post) = _
    unfold collectEncodings
    simp only [hseg]
  | s :: pre', seg, post, hpre, hseg => by
    show collectEncodings reg (s :: (pre' ++ seg :: post)) = _
    unfold collectEncodings
    cases hl : List.lookup (String.mk (goTrimList s)) reg with
    | none =>
      have := hpre s (List.mem_cons_self s _)
      rw [hl] at this
      cases this
    | some enc =>
      simp only [hl,
        collectEncodings_error_of_unknown reg pre' seg post
          (fun x hx => hpre x (List.mem_cons_of_mem s hx)) hseg]
      rfl

/-- An encoding layer used in the round-trip statement: a token, the
encoder applied by the sender, and the registered decoder constructor. -/
structure CodecSpec where
  token : String
  encode : Bytes → Bytes
  decode : EncodingReader

lemma collectEncodings_ok_aligned (reg : List (String × Encoding)) :
    ∀ (specs : List CodecSpec) (segs : List (List Char)),
      segs.length = specs.length →
      (∀ pr ∈ segs.zip specs, String.mk (goTrimList pr.1) = pr.2.token) →
      (∀ sp ∈ specs, ∃ al, List.lookup sp.token reg = some ⟨sp.decode, al⟩) →
      collectEncodings reg segs = .ok (specs.map (fun sp => sp.decode))
  | [], [], _, _, _ => rfl
  | [], s :: _, h, _, _ => by simp at h
  | sp :: specs', [], h, _, _ => by simp at h
  | sp :: specs', seg :: segs', hlen, hzip, hreg => by
    have htr : String.mk (goTrimList seg) = sp.token :=
      hzip (seg, sp) (by rw [List.zip_cons_cons]; exact List.mem_cons_self _ _)
    obtain ⟨al, hal⟩ := hreg sp (List.mem_cons_self _ _)
    unfold collectEncodings
    simp only [htr, hal,
      collectEncodings_ok_aligned reg specs' segs' (by simpa using hlen)
        (fun pr hpr => hzip pr (by rw [List.zip_cons_cons]; exact List.mem_cons_of_mem _ hpr))
        (fun x hx => hreg x (List.mem_cons_of_mem _ hx))]
    rfl

/-! ### Decoder application and the encode/decode round trip -/

/-- The sender applies the declared encodings left to right: the first
header token is the first encoding applied to the original bytes. -/
def encodeAll (specs : List CodecSpec) (orig : Bytes) : Bytes :=
  specs.foldl (fun c sp => sp.encode c) orig

lemma applyDecoders_cons (x : EncodingReader) (xs : List EncodingReader) (c : Bytes) :
    applyDecoders (x :: xs) c = (x c).bind (applyDecoders xs) := rfl

lemma applyDecoders_append_single (xs : List EncodingReader) (d : EncodingReader) :
    ∀ (c : Bytes), applyDecoders (xs ++ [d]) c = (applyDecoders xs c).bind d := by
  induction xs with
  | nil =>
    intro c
    show (d c).bind (fun a => Except.ok a) = d c
    cases hd : d c <;> rfl
  | cons x xs ih =>
    intro c
    rw [List.cons_append, applyDecoders_cons, applyDecoders_cons]
    cases hx : x c with
    | error e => rfl
    | ok a => exact ih a

lemma decode_encode_roundtrip : ∀ (specs : List CodecSpec) (orig : Bytes),
    (∀ sp ∈ specs, ∀ bs, sp.decode (sp.encode bs) = .ok bs) →
    applyDecoders ((specs.map (fun sp => sp.decode)).reverse) (encodeAll specs orig) = .ok orig
  | [], _, _ => rfl
  | sp :: rest, orig, hinv => by
    have h1 : (List.map (fun sp : CodecSpec => sp.decode) (sp :: rest)).reverse
        = (List.map (fun sp : CodecSpec => sp.decode) rest).reverse ++ [sp.decode] := by
      simp
    have h2 : encodeAll (sp :: rest) orig = encodeAll rest (sp.encode orig) := rfl
    rw [h1, h2, applyDecoders_append_single,
      decode_encode_roundtrip rest (sp.encode orig)
        (fun x hx => hinv x (List.mem_cons_of_mem _ hx))]
    exact hinv sp (List.mem_cons_self _ _) orig

/-! ### C8 / C10: unknown and empty encoding tokens -/

/-- Shared: when token collection fails, the first `Read` fails with
UnsupportedEncoding for that token, delivers no bytes, and leaves the
held raw stream untouched (no partial pipeline). -/
lemma read_fails_unsupported (r : LazyReader) (tok : String)
    (hfresh : r.initialized = false)
    (hcl : r.contentLength ≠ 0)
    (hreq : ¬(r.contentLength < 0 ∧ r.options.requireContentLength))
    (hmax : ¬(r.options.maxContentLength > -1 ∧ r.contentLength > r.options.maxContentLength))
    (hhdr : r.contentEncoding ≠ "")
    (hcol : collectEncodings r.options.supportedEncodings (splitComma r.contentEncoding.toList)
              = .error tok) :
    failsWithB (lazyRead r).2 (.unsupportedMediaType tok) = true ∧
    (lazyRead r).1.reader = r.reader ∧
    (lazyRead r).1.initErr = some (.unsupportedMediaType tok) := by
  have hb : initBody r = { r with initErr := some (.unsupportedMediaType tok) } := by
    rw [initBody_build r hcl hreq hmax,
      buildPipeline_error r tok (by rw [if_pos hhdr]; exact hcol)]
  have hie' : (lrInit r).initErr = some (.unsupportedMediaType tok) := by
    rw [lrInit_fresh_eq r hfresh, hb]
  have hread := lazyRead_deferred r _ hie'
  have hfst : (lazyRead r).1 = lrInit r := by rw [hread, finishRead_fst]
  refine ⟨by rw [hread]; exact failsWithB_finishRead _ _, ?_, by rw [hfst]; exact hie'⟩
  rw [hfst, lrInit_fresh_eq r hfresh, hb]

/-- **C8.** If some comma-separated, whitespace-trimmed token of the
Content-Encoding header has no registry entry — at any position, i.e.
after an arbitrary prefix of supported segments — the first read fails
with UnsupportedEncoding carrying exactly that trimmed token, zero body
bytes are delivered (the result is the typed failure, not data), and no
partial pipeline is built (the held stream is the untouched raw body). -/
theorem unknown_token_yields_unsupported (r : LazyReader)
    (pre : List (List Char)) (seg : List Char) (post : List (List Char))
    (hfresh : r.initialized = false)
    (hcl : r.contentLength ≠ 0)
    (hreq : ¬(r.contentLength < 0 ∧ r.options.requireContentLength))
    (hmax : ¬(r.options.maxContentLength > -1 ∧ r.contentLength > r.options.maxContentLength))
    (hhdr : r.contentEncoding ≠ "")
    (hsplit : splitComma r.contentEncoding.toList = pre ++ seg :: post)
    (hpre : ∀ s ∈ pre,
      (List.lookup (String.mk (goTrimList s)) r.options.supportedEncodings).isSome = true)
    (hseg : List.lookup (String.mk (goTrimList seg)) r.options.supportedEncodings = none) :
    failsWithB (lazyRead r).2 (.unsupportedMediaType (String.mk (goTrimList seg))) = true ∧
    (lazyRead r).1.reader = r.reader ∧
    (lazyRead r).1.initErr = some (.unsupportedMediaType (String.mk (goTrimList seg))) :=
  read_fails_unsupported r _ hfresh hcl hreq hmax hhdr
    (by rw [hsplit]; exact collectEncodings_error_of_unknown _ pre seg post hpre hseg)

/-- A fresh reader declaring `Content-Encoding: gzip, brotli` under the
default registry ("brotli" is unknown). -/
def unknownTokenReader : LazyReader :=
  { initialized := false, initCount := 0, contentLength := 1,
    contentEncoding := "gzip, brotli", initErr := none,
    options := { defaultOptions with handleError := none },
    reader := { data := [9], terminal := .eofT, closeErr := none, limit := none } }

/-- Witness for C8 at the concrete header `"gzip, brotli"`. -/
theorem unknown_token_yields_unsupported_witness :
    failsWithB (lazyRead unknownTokenReader).2 (.unsupportedMediaType "brotli") = true ∧
    (lazyRead unknownTokenReader).1.reader = unknownTokenReader.reader ∧
    (lazyRead unknownTokenReader).1.initErr = some (.unsupportedMediaType "brotli") :=
  unknown_token_yields_unsupported unknownTokenReader
    [['g', 'z', 'i', 'p']] [' ', 'b', 'r', 'o', 't', 'l', 'i'] []
    rfl (by decide)
    (fun hc => absurd hc.1 (by decide)) (fun hc => absurd hc.2 (by decide))
    (by decide) (by decide)
    (fun s hs => by rcases List.mem_singleton.mp hs with rfl; rfl) rfl

lemma buildPipeline_empty_header (r : LazyReader) (h : r.contentEncoding = "") :
    buildPipeline r = { r with reader :=
      { data := r.reader.data, terminal := r.reader.terminal, closeErr := r.reader.closeErr,
        limit := if r.options.maxContentLength > 0 then
                   some (r.options.maxContentLength, r.options.maxContentLength)
                 else none } } :=
  buildPipeline_ok r [] r.reader.data (by rw [h]; simp) rfl

/-- **C10.** A non-empty header one of whose segments trims to the empty
string (whitespace-only header, trailing or doubled comma) makes the
first read fail with UnsupportedEncoding whose token is the empty string
— empty segments are looked up like any token, and the empty string has
no registry entry — provided every earlier segment is supported (the
loop reports the first unsupported token).  Only a header equal to the
exact empty string is treated as no encoding: it yields no
UnsupportedEncoding and applies no decoder to the content. -/
theorem empty_segment_yields_unsupported_empty (r r' : LazyReader)
    (pre : List (List Char)) (seg : List Char) (post : List (List Char))
    (hfresh : r.initialized = false)
    (hcl : r.contentLength ≠ 0)
    (hreq : ¬(r.contentLength < 0 ∧ r.options.requireContentLength))
    (hmax : ¬(r.options.maxContentLength > -1 ∧ r.contentLength > r.options.maxContentLength))
    (hhdr : r.contentEncoding ≠ "")
    (hsplit : splitComma r.contentEncoding.toList = pre ++ seg :: post)
    (hpre : ∀ s ∈ pre,
      (List.lookup (String.mk (goTrimList s)) r.options.supportedEncodings).isSome = true)
    (hsegEmpty : goTrimList seg = [])
    (hnoEmpty : List.lookup "" r.options.supportedEncodings = none)
    (h'enc : r'.contentEncoding = "") (h'ie : r'.initErr = none) :
    failsWithB (lazyRead r).2 (.unsupportedMediaType "") = true ∧
    (initBody r').reader.data = r'.reader.data ∧
    (∀ t, (initBody r').initErr ≠ some (.unsupportedMediaType t)) := by
  have htok : String.mk (goTrimList seg) = "" := by rw [hsegEmpty]
  have hmain := read_fails_unsupported r (String.mk (goTrimList seg)) hfresh hcl hreq hmax hhdr
    (by
      rw [hsplit]
      exact collectEncodings_error_of_unknown _ pre seg post hpre (by rw [htok]; exact hnoEmpty))
  refine ⟨by rw [← htok]; exact hmain.1, ?_, ?_⟩
  · by_cases hcl0 : r'.contentLength = 0
    · rw [initBody_skip r' hcl0]
    by_cases hlr : r'.contentLength < 0 ∧ r'.options.requireContentLength
    · rw [initBody_lengthRequired r' hcl0 hlr.1 hlr.2]
    by_cases htl : r'.options.maxContentLength > -1 ∧ r'.contentLength > r'.options.maxContentLength
    · rw [initBody_tooLarge r' hcl0 hlr htl.1 htl.2]
    · rw [initBody_build r' hcl0 hlr htl, buildPipeline_empty_header r' h'enc]
  · intro t
    by_cases hcl0 : r'.contentLength = 0
    · rw [initBody_skip r' hcl0, h'ie]
      intro hcon; cases hcon
    by_cases hlr : r'.contentLength < 0 ∧ r'.options.requireContentLength
    · rw [initBody_lengthRequired r' hcl0 hlr.1 hlr.2]
      intro hcon; simp at hcon
    by_cases htl : r'.options.maxContentLength > -1 ∧ r'.contentLength > r'.options.maxContentLength
    · rw [initBody_tooLarge r' hcl0 hlr htl.1 htl.2]
      intro hcon; simp at hcon
    · rw [initBody_build r' hcl0 hlr htl, buildPipeline_empty_header r' h'enc]
      intro hcon
      have hcon' : r'.initErr = some (.unsupportedMediaType t) := hcon
      rw [h'ie] at hcon'
      cases hcon'

/-- A fresh reader declaring `Content-Encoding: gzip,` (trailing comma)
under the default registry. -/
def trailingCommaReader : LazyReader :=
  { initialized := false, initCount := 0, contentLength := 1,
    contentEncoding := "gzip,", initErr := none,
    options := { defaultOptions with handleError := none },
    reader := { data := [9], terminal := .eofT, closeErr := none, limit := none } }

/-- A fresh reader with an exactly-empty Content-Encoding header. -/
def emptyHeaderReader : LazyReader :=
  { initialized := false, initCount := 0, contentLength := 1,
    contentEncoding := "", initErr := none,
    options := { defaultOptions with handleError := none },
    reader := { data := [9], terminal := .eofT, closeErr := none, limit := none } }

/-- Witness for C10 at the concrete headers `"gzip,"` and `""`. -/
theorem empty_segment_yields_unsupported_empty_witness :
    failsWithB (lazyRead trailingCommaReader).2 (.unsupportedMediaType "") = true ∧
    (initBody emptyHeaderReader).reader.data = emptyHeaderReader.reader.data :=
  ⟨(empty_segment_yields_unsupported_empty trailingCommaReader emptyHeaderReader
      [['g', 'z', 'i', 'p']] [] [] rfl (by decide)
      (fun hc => absurd hc.1 (by decide)) (fun hc => absurd hc.2 (by decide))
      (by decide) (by decide)
      (fun s hs => by rcases List.mem_singleton.mp hs with rfl; rfl) rfl rfl rfl rfl).1,
   (empty_segment_yields_unsupported_empty trailingCommaReader emptyHeaderReader
      [['g', 'z', 'i', 'p']] [] [] rfl (by decide)
      (fun hc => absurd hc.1 (by decide)) (fun hc => absurd hc.2 (by decide))
      (by decide) (by decide)
      (fun s hs => by rcases List.mem_singleton.mp hs with rfl; rfl) rfl rfl rfl rfl).2.1⟩

/-! ### C4: round trip through the declared encoding chain -/

lemma collectEncodings_space_all (reg : List (String × Encoding)) :
    ∀ (rest : List CodecSpec),
      (∀ sp ∈ rest, goTrim sp.token = sp.token) →
      (∀ sp ∈ rest, ∃ al, List.lookup sp.token reg = some ⟨sp.decode, al⟩) →
      collectEncodings reg (rest.map (fun sp => ' ' :: sp.token.toList))
        = .ok (rest.map (fun sp => sp.decode))
  | [], _, _ => rfl
  | sp :: rest', htrim, hreg => by
    rw [List.map_cons, List.map_cons]
    simp only [collectEncodings]
    have htr : String.mk (goTrimList (' ' :: sp.token.toList)) = sp.token := by
      rw [goTrimList_space_cons]
      exact htrim sp (List.mem_cons_self _ _)
    obtain ⟨al, hal⟩ := hreg sp (List.mem_cons_self _ _)
    rw [htr, hal,
      collectEncodings_space_all reg rest'
        (fun x hx => htrim x (List.mem_cons_of_mem _ hx))
        (fun x hx => hreg x (List.mem_cons_of_mem _ hx))]
    rfl

lemma collectEncodings_header (reg : List (String × Encoding)) (specs : List CodecSpec)
    (hne : specs ≠ [])
    (htrim : ∀ sp ∈ specs, goTrim sp.token = sp.token)
    (hcomma : ∀ sp ∈ specs, ',' ∉ sp.token.toList)
    (hreg : ∀ sp ∈ specs, ∃ al, List.lookup sp.token reg = some ⟨sp.decode, al⟩) :
    collectEncodings reg
        (splitComma (joinHeader (specs.map (fun sp => sp.token))).toList)
      = .ok (specs.map (fun sp => sp.decode)) := by
  have htl : (joinHeader (specs.map (fun sp => sp.token))).toList
      = joinTokens (specs.map (fun sp => sp.token.toList)) := by
    show joinTokens ((specs.map (fun sp => sp.token)).map String.toList) = _
    rw [List.map_map]
    rfl
  rw [htl, splitComma_joinTokens _ (by simpa using hne)
    (by
      intro t ht
      obtain ⟨sp, hsp, rfl⟩ := List.mem_map.mp ht
      exact hcomma sp hsp)]
  cases specs with
  | nil => exact absurd rfl hne
  | cons sp rest =>
    rw [List.map_cons]
    show collectEncodings reg
        (sp.token.toList :: (rest.map (fun x => x.token.toList)).map (fun u => ' ' :: u)) = _
    rw [List.map_map]
    simp only [collectEncodings]
    have htr : String.mk (goTrimList sp.token.toList) = sp.token :=
      htrim sp (List.mem_cons_self _ _)
    obtain ⟨al, hal⟩ := hreg sp (List.mem_cons_self _ _)
    rw [htr, hal,
      show rest.map ((fun u => ' ' :: u) ∘ fun x : CodecSpec => x.token.toList)
          = rest.map (fun sp => ' ' :: sp.token.toList) from rfl,
      collectEncodings_space_all reg rest
        (fun x hx => htrim x (List.mem_cons_of_mem _ hx))
        (fun x hx => hreg x (List.mem_cons_of_mem _ hx))]
    rfl

/-- **C4.** For every sequence of supported encoding layers
`[e1, ..., en]` applied in that order by the sender, a reader declaring
the header `"e1, e2, ..., en"` decodes the body back to the original
bytes exactly: the decoder constructors are applied in reverse of the
header's left-to-right token order, so the last header token is decoded
first and the chain inverts the sender's composition. -/
theorem declared_encodings_roundtrip (specs : List CodecSpec) (orig : Bytes) (r : LazyReader)
    (hne : specs ≠ [])
    (hemp : ∀ sp ∈ specs, sp.token ≠ "")
    (htrim : ∀ sp ∈ specs, goTrim sp.token = sp.token)
    (hcomma : ∀ sp ∈ specs, ',' ∉ sp.token.toList)
    (hreg : ∀ sp ∈ specs, ∃ al,
      List.lookup sp.token r.options.supportedEncodings = some ⟨sp.decode, al⟩)
    (hinv : ∀ sp ∈ specs, ∀ bs, sp.decode (sp.encode bs) = .ok bs)
    (hfresh : r.initialized = false) (hie : r.initErr = none)
    (hcl : 0 < r.contentLength) (hmax : r.options.maxContentLength = -1)
    (hhdr : r.contentEncoding = joinHeader (specs.map (fun sp => sp.token)))
    (hdata : r.reader.data = encodeAll specs orig)
    (hterm : r.reader.terminal = .eofT) :
    (lrInit r).initErr = none ∧
    drain (orig.length + 2) r = (orig, some .eofE) := by
  have hhdrne : r.contentEncoding ≠ "" := by
    rw [hhdr]
    exact joinHeader_ne_empty _ (by simpa using hne)
      (by
        intro n hn
        obtain ⟨sp, hsp, rfl⟩ := List.mem_map.mp hn
        exact hemp sp hsp)
  have hcol : collectEncodings r.options.supportedEncodings
      (splitComma r.contentEncoding.toList) = .ok (specs.map (fun sp => sp.decode)) := by
    rw [hhdr]
    exact collectEncodings_header _ specs hne htrim hcomma hreg
  have hb : initBody r = { r with reader :=
      { data := orig, terminal := .eofT, closeErr := r.reader.closeErr, limit := none } } := by
    rw [initBody_build r (by omega) (fun hc => absurd hc.1 (by omega))
        (fun hc => absurd hc.1 (by omega)),
      buildPipeline_ok r (specs.map (fun sp => sp.decode)) orig
        (by rw [if_pos hhdrne]; exact hcol)
        (by rw [hdata]; exact decode_encode_roundtrip specs orig hinv),
      hterm, hmax, if_neg (by norm_num)]
  have hinit : lrInit r = { r with
      initialized := true
      initCount := r.initCount + 1
      reader := { data := orig, terminal := .eofT, closeErr := r.reader.closeErr,
                  limit := none } } := by
    rw [lrInit_fresh_eq r hfresh, hb]
  constructor
  · rw [hinit]; exact hie
  · rw [show orig.length + 2 = (orig.length + 1) + 1 from rfl, drain_succ_init, hinit]
    exact drain_no_limit orig (orig.length + 1 + 1) _ rfl hie rfl rfl rfl (by omega)

/-- Two invertible toy codecs for the round-trip witness: one reverses
the content, one prepends a marker byte. -/
def revSpec : CodecSpec :=
  { token := "rev", encode := fun bs => bs.reverse, decode := fun bs => .ok bs.reverse }

/-- See `revSpec`. -/
def markSpec : CodecSpec :=
  { token := "mark", encode := fun bs => 0 :: bs, decode := fun bs => .ok bs.tail }

/-- A fresh reader declaring `Content-Encoding: rev, mark` whose body is
`mark (rev [1,2,3])`. -/
def roundtripReader : LazyReader :=
  { initialized := false, initCount := 0, contentLength := 4,
    contentEncoding := "rev, mark", initErr := none,
    options :=
      { maxContentLength := -1
        requireContentLength := false
        supportedEncodings :=
          [("rev", ⟨revSpec.decode, false⟩), ("mark", ⟨markSpec.decode, false⟩)]
        handleError := none },
    reader := { data := [0, 3, 2, 1], terminal := .eofT, closeErr := none, limit := none } }

/-- Witness for C4: the header `"rev, mark"` over the doubly-encoded
body recovers `[1,2,3]`. -/
theorem declared_encodings_roundtrip_witness :
    (lrInit roundtripReader).initErr = none ∧
    drain 5 roundtripReader = ([1, 2, 3], some .eofE) :=
  declared_encodings_roundtrip [revSpec, markSpec] [1, 2, 3] roundtripReader
    (by simp)
    (by intro sp hsp; simp at hsp; rcases hsp with rfl | rfl <;> decide)
    (by intro sp hsp; simp at hsp; rcases hsp with rfl | rfl <;> decide)
    (by intro sp hsp; simp at hsp; rcases hsp with rfl | rfl <;> decide)
    (by
      intro sp hsp
      simp at hsp
      rcases hsp with rfl | rfl
      · exact ⟨false, rfl⟩
      · exact ⟨false, rfl⟩)
    (by
      intro sp hsp bs
      simp at hsp
      rcases hsp with rfl | rfl
      · simp [revSpec]
      · simp [markSpec])
    rfl rfl (by decide) rfl (by decide) (by decide) rfl

/-! ### C9: per-request policy isolation and the shared encodings map -/

/-- A Go map value is a reference into a heap of backing association
lists; copying a struct that holds a map copies only the reference. -/
structure MapHeap where
  store : List (List (String × Encoding))

/-- Dereference a map. -/
def heapGet (h : MapHeap) (ref : Nat) : List (String × Encoding) := h.store.getD ref []

/-- Mutate the map behind a reference, in place. -/
def heapSet (h : MapHeap) (ref : Nat) (m : List (String × Encoding)) : MapHeap :=
  ⟨h.store.set ref m⟩

/-- The `options` struct as Go lays it out: `supportedEncodings` is a
map reference. -/
structure GoOptions where
  maxContentLength : Int
  requireContentLength : Bool
  encRef : Nat

/-- Go map assignment `m[k] = v` (replace if present, insert otherwise). -/
def mapInsert (m : List (String × Encoding)) (k : String) (v : Encoding) :
    List (String × Encoding) :=
  if (List.lookup k m).isSome then m.map (fun p => if p.1 = k then (k, v) else p)
  else m ++ [(k, v)]

/-- Go map `delete(m, k)`. -/
def mapDelete (m : List (String × Encoding)) (k : String) : List (String × Encoding) :=
  m.filter (fun p => ¬(p.1 = k))

/-- `RequestBodyHandler` allocates the `supportedEncodings` map once,
when the middleware is constructed. -/
def newHandlerOptions : MapHeap × GoOptions :=
  (⟨[defaultEncodings]⟩,
   { maxContentLength := 10 * 1024 * 1024, requireContentLength := false, encRef := 0 })

/-- Per request, `options: defaultOptions` in the `lazyReader` literal
copies the struct — scalar fields by value, the map by reference. -/
def attachRequestOptions (defaults : GoOptions) : GoOptions := defaults

/-- `SupportEncoding(name, reader)` applied through a request's options:
`opts.supportedEncodings[name] = encoding{reader, false}` writes through
the reference. -/
def supportEncodingApply (h : MapHeap) (o : GoOptions) (name : String)
    (rdr : EncodingReader) : MapHeap :=
  heapSet h o.encRef (mapInsert (heapGet h o.encRef) name ⟨rdr, false⟩)

/-- `DisableEncoding(name)` applied through a request's options. -/
def disableEncodingApply (h : MapHeap) (o : GoOptions) (name : String) : MapHeap :=
  heapSet h o.encRef (mapDelete (heapGet h o.encRef) name)

/-- Whether `name` is in the supported-encodings map of options `o`. -/
def supportsEncoding (h : MapHeap) (o : GoOptions) (name : String) : Bool :=
  (List.lookup name (heapGet h o.encRef)).isSome

/-- Request A's options, attached by the wrapper. -/
def requestA : GoOptions := attachRequestOptions newHandlerOptions.2

/-- Request B's options, attached by the wrapper for a different
request. -/
def requestB : GoOptions := attachRequestOptions newHandlerOptions.2

/-- A decoder constructor registered per-request in the scenario. -/
def brReader : EncodingReader := fun bs => .ok bs

/-- **C9 (code bug).** The per-request copy of the options struct
shares the `supportedEncodings` map between requests: registering "br"
through request A's override channel makes request B support "br" too,
and disabling "gzip" through request A removes it from request B's
policy — refuting the claimed isolation of per-request Policies. -/
theorem per_request_policy_shares_encoding_map :
    supportsEncoding newHandlerOptions.1 requestB "br" = false ∧
    supportsEncoding (supportEncodingApply newHandlerOptions.1 requestA "br" brReader)
      requestB "br" = true ∧
    supportsEncoding newHandlerOptions.1 requestB "gzip" = true ∧
    supportsEncoding (disableEncodingApply newHandlerOptions.1 requestA "gzip")
      requestB "gzip" = false :=
  ⟨rfl, rfl, rfl, rfl⟩

end RequestBody
